import Mathlib

/-!
Verification of the sonarigo sample-playback engine core.

This file gives a shallow embedding, in Lean 4, of the synthesis core of the
sonarigo repository (crate `soundfonts`): the ADSR envelope generator
(`src/envelopes.rs`), the polyphonic sample player (`src/sample.rs`) and the
SFZ region/engine logic (`src/sfz/engine.rs`), together with theorems that
settle a fixed list of claims about that code.

Modelling conventions:
* `f32`/`f64` values are modelled as exact rationals (`ℚ`).  Transcendental
  operations of the source (`log10`, `powf`, `exp`, the MIDI-note-to-frequency
  table of the `wmidi` crate) are abstracted into a `FloatOps` record of
  uninterpreted functions `ℚ → ℚ`; every theorem quantifies over them unless
  it needs a concrete instance.
* Rust `Vec<T>` becomes `List`, `HashSet` becomes a duplicate-free `List`
  manipulated with `List.insert` / `List.erase`, `HashMap` becomes an
  association list.
* `usize` casts from floats saturate at zero (`Int.toNat`), matching Rust
  `as usize` semantics for the (non-negative) values that occur.
* Panicking `Vec` indexing is modelled with `List.getD _ 0`; the in-bounds
  claim (C8) shows the interesting indices are within range.
-/

namespace Sonarigo

set_option linter.unusedVariables false

/-- Abstract float operations: the transcendental functions used by the engine.
`log10` and `powf` model `f32::log10` / `f32::powf` (and the `f64` variants),
`fexp` models `f32::exp`, `noteFreq` models `wmidi::Note::to_freq_f64`. -/
structure FloatOps where
  log10 : ℚ → ℚ
  powf : ℚ → ℚ → ℚ
  fexp : ℚ → ℚ
  noteFreq : ℕ → ℚ

/-- `utils::dB_to_gain`: `10.0f32.powf(0.05 * dB)`. -/
def dB_to_gain (ops : FloatOps) (dB : ℚ) : ℚ :=
  ops.powf 10 (0.05 * dB)

/-- Rounding of a float to the nearest integer, half away from zero
(`f32::round`). -/
def roundF (q : ℚ) : ℤ :=
  if 0 ≤ q then ⌊q + 1/2⌋ else -⌊-q + 1/2⌋

/-- Ceiling on `ℚ` written through the floor, so that concrete values reduce
with `norm_num`; equal to `Int.ceil` (see `qceil_eq_ceil`). -/
def qceil (q : ℚ) : ℤ := -⌊-q⌋

/-! ## Envelopes (`soundfonts/src/envelopes.rs`) -/

/-- `envelopes::Generator`: the five ADSR parameters. -/
structure Generator where
  attack : ℚ
  hold : ℚ
  decay : ℚ
  sustain : ℚ
  release : ℚ
deriving DecidableEq

/-- `Generator::default()`. -/
def Generator.default : Generator :=
  { attack := 0, hold := 0, decay := 0, sustain := 1, release := 0 }

/-- `envelopes::calc_needed_samples`:
`((round(length * samplerate) as usize / max_block_length) + 2) * max_block_length`. -/
def calc_needed_samples (length samplerate : ℚ) (max_block_length : ℕ) : ℕ :=
  let needed_samples := (roundF (length * samplerate)).toNat
  ((needed_samples / max_block_length) + 2) * max_block_length

/-- One step of the `ads_envelope` loop body: threads the mutable `last`
through and appends the value for sample index `i`. -/
def adsStep (g : Generator) (samplerate decay_step : ℚ) (p : ℚ × List ℚ) (i : ℕ) :
    ℚ × List ℚ :=
  let t := (i : ℚ) / samplerate
  if t < g.attack then (p.1, p.2 ++ [t / g.attack])
  else if t < g.attack + g.hold then (p.1, p.2 ++ [1])
  else if t < g.attack + g.hold + 2 * g.decay then
    let last := p.1 * decay_step
    (last, p.2 ++ [g.sustain + last])
  else (p.1, p.2 ++ [g.sustain])

/-- `Generator::ads_envelope`: the attack-hold-decay table.  The decay
multiplier `exp(-8/(samplerate*decay))` goes through the abstract `fexp`. -/
def Generator.ads_envelope (g : Generator) (ops : FloatOps) (samplerate : ℚ)
    (max_block_length : ℕ) : List ℚ :=
  let length := calc_needed_samples (g.attack + g.hold + 2 * g.decay) samplerate
    max_block_length
  let decay_step := ops.fexp (-8 / (samplerate * g.decay))
  ((List.range length).foldl (adsStep g samplerate decay_step) (1 - g.sustain, [])).2

/-- `Generator::sustain_envelope`. -/
def Generator.sustain_envelope (g : Generator) (nsamples : ℕ) : List ℚ :=
  List.replicate nsamples g.sustain

/-- One step of the `release_envelope` loop body. -/
def releaseStep (release_step : ℚ) (p : ℚ × List ℚ) (i : ℕ) : ℚ × List ℚ :=
  let last := p.1 * release_step
  (last, p.2 ++ [last])

/-- `Generator::release_envelope`. -/
def Generator.release_envelope (g : Generator) (ops : FloatOps) (samplerate : ℚ)
    (max_block_length : ℕ) : List ℚ :=
  let length := calc_needed_samples (2 * g.release) samplerate max_block_length
  let release_step := ops.fexp (-8 / (samplerate * g.release))
  ((List.range length).foldl (releaseStep release_step) (g.sustain, [])).2

/-- `envelopes::State`. -/
inductive EnvState where
  | attackDecay (pos : ℕ)
  | sustain
  | release (pos : ℕ)
  | inactive
deriving DecidableEq

/-- `State::is_active`. -/
def EnvState.is_active : EnvState → Bool
  | .inactive => false
  | _ => true

/-- Modelled from the spec: `State::is_releasing` is called from
`soundfonts/src/sample.rs` but its definition is not among the given source
files.  The spec describes releasing voices as those whose envelope state is
the Release segment, and `is_releasing_note` as the symmetric counterpart of
`is_playing_note`. -/
def EnvState.is_releasing : EnvState → Bool
  | .release _ => true
  | _ => false

/-- `envelopes::ADSREnvelope`: the three precomputed tables. -/
structure ADSREnvelope where
  attack_decay_envelope : List ℚ
  sustain_envelope : List ℚ
  release_envelope : List ℚ
  max_block_length : ℕ
deriving DecidableEq

/-- `ADSREnvelope::new`. -/
def ADSREnvelope.new (ops : FloatOps) (generator : Generator) (samplerate : ℚ)
    (max_block_length : ℕ) : ADSREnvelope :=
  { attack_decay_envelope := generator.ads_envelope ops samplerate max_block_length
    sustain_envelope := generator.sustain_envelope max_block_length
    release_envelope := generator.release_envelope ops samplerate max_block_length
    max_block_length := max_block_length }

/-- `ADSREnvelope::active_envelope`.  The `Inactive` arm logs an error in the
source and substitutes the sustain table. -/
def ADSREnvelope.active_envelope (e : ADSREnvelope) (state : EnvState) :
    List ℚ × ℕ :=
  match state with
  | .attackDecay pos => (e.attack_decay_envelope, pos)
  | .release pos => (e.release_envelope, pos)
  | .sustain => (e.sustain_envelope, 0)
  | .inactive => (e.sustain_envelope, 0)

/-- `ADSREnvelope::update_state`.  The `-160 dB` linear threshold
`dB_to_gain(-160.0)` goes through the abstract `powf`. -/
def ADSREnvelope.update_state (e : ADSREnvelope) (ops : FloatOps)
    (state : EnvState) (new_pos : ℕ) : EnvState :=
  match state with
  | .attackDecay _ =>
    if new_pos < e.attack_decay_envelope.length - e.max_block_length then
      .attackDecay new_pos
    else .sustain
  | .release _ =>
    if new_pos < e.release_envelope.length - e.max_block_length ∧
        e.release_envelope.getD new_pos 0 > dB_to_gain ops (-160) then
      .release new_pos
    else .inactive
  | s => s

/-! ## Sample player (`soundfonts/src/sample.rs`) -/

/-- `sample::Voice`. -/
structure Voice where
  position : ℚ
  note : ℕ
  frequency : ℚ
  gain : ℚ
  envelope_state : EnvState
  last_envelope_gain : ℚ
  release_start_gain : ℚ
deriving DecidableEq

/-- `Voice::new`. -/
def Voice.new (note : ℕ) (frequency gain : ℚ) : Voice :=
  { position := 0, note := note, frequency := frequency, gain := gain
    envelope_state := .attackDecay 0, last_envelope_gain := 1
    release_start_gain := 1 }

/-- `sample::Sample`. -/
structure Sample where
  sample_data : List ℚ
  voices : List Voice
  real_sample_length : ℚ
  max_block_length : ℕ
  native_frequency : ℚ
  envelope : ADSREnvelope
deriving DecidableEq

/-- `Vec::resize(new_len, 0.0)`: truncate or zero-pad to the requested
length. -/
def resizeList (l : List ℚ) (n : ℕ) : List ℚ :=
  l.take n ++ List.replicate (n - l.length) 0

/-- `Sample::new`. -/
def Sample.new (sample_data : List ℚ) (max_block_length : ℕ)
    (native_frequency : ℚ) (envelope : ADSREnvelope) : Sample :=
  let real_sample_length := sample_data.length
  let frames := real_sample_length / 2
  let reserve_frames := ((frames / max_block_length) + 2) * max_block_length
  { sample_data := resizeList sample_data (reserve_frames * 2)
    voices := []
    real_sample_length := (frames : ℚ)
    max_block_length := max_block_length
    native_frequency := native_frequency
    envelope := envelope }

/-- `Sample::is_playing`. -/
def Sample.is_playing (s : Sample) : Bool := !s.voices.isEmpty

/-- The body of the per-voice loop of `Sample::note_off` / `all_notes_off`:
enter `Release(0)` and latch the release start gain. -/
def releaseVoice (v : Voice) : Voice :=
  { v with envelope_state := .release 0, release_start_gain := v.last_envelope_gain }

/-- `Sample::note_off`. -/
def Sample.note_off (s : Sample) (note : ℕ) : Sample :=
  { s with voices := s.voices.map (fun v =>
      if v.note = note ∧ v.envelope_state.is_releasing = false then releaseVoice v
      else v) }

/-- `Sample::note_on`. -/
def Sample.note_on (s : Sample) (note : ℕ) (frequency gain : ℚ) : Sample :=
  let s := s.note_off note
  { s with voices := s.voices ++ [Voice.new note frequency gain] }

/-- `Sample::all_notes_off`. -/
def Sample.all_notes_off (s : Sample) : Sample :=
  { s with voices := s.voices.map releaseVoice }

/-- `sample.rs` test helper `is_playing_note`, also called as a method from
`sfz/engine.rs`: some non-releasing voice carries the note. -/
def Sample.is_playing_note (s : Sample) (note : ℕ) : Bool :=
  s.voices.any (fun v => decide (v.note = note) && !v.envelope_state.is_releasing)

/-- `sample.rs` test helper `is_releasing_note`, also called as a method from
`sfz/engine.rs`: some releasing voice carries the note. -/
def Sample.is_releasing_note (s : Sample) (note : ℕ) : Bool :=
  s.voices.any (fun v => decide (v.note = note) && v.envelope_state.is_releasing)

/-- `sample::cubic`: four-point interpolation on the interleaved stereo
buffer.  Out-of-range indexing (a panic in Rust) is modelled by `getD _ 0`. -/
def cubic (sample_data : List ℚ) (pos : ℕ) (remainder : ℚ) : ℚ :=
  let len := sample_data.length
  let p0 := sample_data.getD ((pos + len - 2) % len) 0
  let p1 := sample_data.getD pos 0
  let p2 := sample_data.getD (pos + 2) 0
  let p3 := sample_data.getD (pos + 4) 0
  let a := remainder
  let b := 1 - a
  let c := a * b
  (1 + 1.5 * c) * (p1 * b + p2 * a) - 0.5 * c * (p0 * b + p1 + p2 + p3 * a)

/-- The inner frame loop of `Sample::process` for one voice: walks the
(left, right) output frames, accumulating into them and advancing
`voice.position` by `ratio` and the envelope index by one per frame.
Returns the updated frames, the final position and the final envelope
index. -/
def sampleFrames (sample_data envelope : List ℚ) (vgain rsg ratio : ℚ) :
    List (ℚ × ℚ) → ℚ → ℕ → List (ℚ × ℚ) × ℚ × ℕ
  | [], position, env_position => ([], position, env_position)
  | (l, r) :: rest, position, env_position =>
    let sample_pos := (⌊position⌋).toNat
    let remainder := position - (⌊position⌋ : ℚ)
    let gain := vgain * envelope.getD env_position 0 * rsg
    let l := l + gain * cubic sample_data (2 * sample_pos) remainder
    let r := r + gain * cubic sample_data (2 * sample_pos + 1) remainder
    let next := sampleFrames sample_data envelope vgain rsg ratio rest
      (position + ratio) (env_position + 1)
    ((l, r) :: next.1, next.2)

/-- The lazy padding step at the top of the per-voice loop of
`Sample::process`: grow `sample_data` when the coming block could read past
it. -/
def growData (sample_data : List ℚ) (position ratio : ℚ)
    (max_block_length : ℕ) : List ℚ :=
  let needed_sample_length := (qceil (position + (max_block_length : ℚ) * ratio)).toNat + 5
  if needed_sample_length * 2 ≥ sample_data.length then
    resizeList sample_data (needed_sample_length * 2)
  else sample_data

/-- The per-voice body of `Sample::process`: grow the data, run the frame
loop, set `last_envelope_gain` and step the envelope state machine. -/
def processVoice (ops : FloatOps) (envelope : ADSREnvelope)
    (native_frequency : ℚ) (max_block_length : ℕ) (sample_data : List ℚ)
    (outs : List (ℚ × ℚ)) (v : Voice) : List ℚ × List (ℚ × ℚ) × Voice :=
  let ratio := v.frequency / native_frequency
  let sample_data := growData sample_data v.position ratio max_block_length
  let ep := envelope.active_envelope v.envelope_state
  let res := sampleFrames sample_data ep.1 v.gain v.release_start_gain ratio outs
    v.position ep.2
  let env_position := res.2.2
  let last_gain :=
    if env_position < ep.1.length then ep.1.getD env_position 0
    else ep.1.getD (env_position - 1) 0
  let state := envelope.update_state ops v.envelope_state env_position
  (sample_data, res.1,
    { v with position := res.2.1, envelope_state := state,
             last_envelope_gain := last_gain })

/-- `Sample::process`: run every voice in order (the data growth of one voice
is seen by the next), then retain only live voices. -/
def Sample.process (ops : FloatOps) (s : Sample) (outs : List (ℚ × ℚ)) :
    Sample × List (ℚ × ℚ) :=
  let step := fun (acc : List ℚ × List (ℚ × ℚ) × List Voice) (v : Voice) =>
    let res := processVoice ops s.envelope s.native_frequency s.max_block_length
      acc.1 acc.2.1 v
    (res.1, res.2.1, acc.2.2 ++ [res.2.2])
  let folded := s.voices.foldl step (s.sample_data, outs, [])
  let voices := folded.2.2.filter (fun v =>
    decide (v.position < s.real_sample_length) && v.envelope_state.is_active)
  ({ s with sample_data := folded.1, voices := voices }, folded.2.1)

/-! ## SFZ regions and engine (`soundfonts/src/sfz/engine.rs`) -/

/-- Range-error taxonomy of `errors.rs` (message payloads omitted). -/
inductive RangeErr where
  | out_of_range
  | flipped_range
deriving DecidableEq

/-- `VelRange` (inclusive velocity interval). -/
structure VelRange where
  lo : ℕ
  hi : ℕ
deriving DecidableEq

/-- `VelRange::covering`. -/
def VelRange.covering (r : VelRange) (vel : ℕ) : Bool :=
  decide (r.lo ≤ vel) && decide (vel ≤ r.hi)

/-- `NoteRange` (inclusive note interval, either endpoint may be disabled). -/
structure NoteRange where
  lo : Option ℕ
  hi : Option ℕ
deriving DecidableEq

/-- `NoteRange::covering`. -/
def NoteRange.covering (r : NoteRange) (note : ℕ) : Bool :=
  match r.lo, r.hi with
  | some lo, some hi => decide (lo ≤ note) && decide (note ≤ hi)
  | _, _ => false

/-- `RandomRange` (float interval; field order as in the source). -/
structure RandomRange where
  hi : ℚ
  lo : ℚ
deriving DecidableEq

/-- `RandomRange::set_hi`, translated with the guards exactly as written in
the source: the first arm tests `v < 0.0 && v > 1.0`. -/
def RandomRange.set_hi (r : RandomRange) (v : ℚ) : Except RangeErr RandomRange :=
  if v < 0 ∧ v > 1 then .error .out_of_range
  else if v < r.lo ∧ r.lo > 0 then .error .flipped_range
  else .ok { r with hi := v }

/-- `RandomRange::set_lo`, with the guards exactly as written in the source. -/
def RandomRange.set_lo (r : RandomRange) (v : ℚ) : Except RangeErr RandomRange :=
  if v < 0 ∧ v > 1 then .error .out_of_range
  else if v > r.hi ∧ r.hi > 0 then .error .flipped_range
  else .ok { r with lo := v }

/-- `RandomRange::covering`. -/
def RandomRange.covering (r : RandomRange) (v : ℚ) : Bool :=
  decide (r.hi = r.lo) || (decide (v ≥ r.lo) && decide (v < r.hi))

/-- `ControlValRange`. -/
structure ControlValRange where
  hi : Option ℕ
  lo : Option ℕ
deriving DecidableEq

/-- `ControlValRange::covering`. -/
def ControlValRange.covering (r : ControlValRange) (vel : ℕ) : Bool :=
  match r.lo, r.hi with
  | some lo, some hi => decide (lo ≤ vel) && decide (vel ≤ hi)
  | _, _ => false

/-- `Trigger`. -/
inductive Trigger where
  | attack
  | release
  | first
  | legato
  | releaseKey
deriving DecidableEq

/-- `RegionData`: immutable region parameters. -/
structure RegionData where
  key_range : NoteRange
  vel_range : VelRange
  ampeg : Generator
  pitch_keycenter : ℕ
  pitch_keytrack : ℚ
  amp_veltrack : ℚ
  volume : ℚ
  rt_decay : ℚ
  tune : ℚ
  trigger : Trigger
  group : ℕ
  off_by : ℕ
  on_ccs : List (ℕ × ControlValRange)
  random_range : RandomRange
deriving DecidableEq

/-- `RegionData::default()`: full key/vel ranges, zero random range,
`pitch_keycenter = C3 (48)`, keytrack 1, veltrack 1, attack trigger. -/
def RegionData.default : RegionData :=
  { key_range := { lo := some 0, hi := some 127 }
    vel_range := { lo := 0, hi := 127 }
    ampeg := Generator.default
    pitch_keycenter := 48
    pitch_keytrack := 1
    amp_veltrack := 1
    volume := 0
    rt_decay := 0
    tune := 0
    trigger := .attack
    group := 0
    off_by := 0
    on_ccs := []
    random_range := { hi := 0, lo := 0 } }

/-- `Region`: parameters plus runtime state. -/
structure Region where
  params : RegionData
  sample : Sample
  gain : ℚ
  samplerate : ℚ
  last_note_on : Option (ℕ × ℕ)
  notes_for_release_trigger : List ℕ
  other_notes_on : List ℕ
  time_since_note_on : ℚ
  sustain_pedal_pushed : Bool
  once_immune_against_group_events : Bool
deriving DecidableEq

/-- The velocity-dB term computed inside `Region::note_on`:
`-160.0` at zero effective velocity, else `-20*log10(127²/v²)`. -/
def velocity_db_code (ops : FloatOps) (vel : ℕ) : ℚ :=
  if vel = 0 then -160
  else -20 * ops.log10 ((127 * 127) / ((vel : ℚ) * (vel : ℚ)))

/-- The effective velocity of `Region::note_on`: inverted to `127 - v` when
`amp_veltrack < 0` (`u8` arithmetic; velocities are at most 127). -/
def effective_vel (amp_veltrack : ℚ) (vel : ℕ) : ℕ :=
  if amp_veltrack < 0 then 127 - vel else vel

/-- The release-trigger dB roll-off term of `Region::note_on`. -/
def rt_decay_db (trigger : Trigger) (time_since_note_on rt_decay : ℚ) : ℚ :=
  match trigger with
  | .release | .releaseKey => time_since_note_on * (-rt_decay)
  | _ => 0

/-- `Region::note_on`: compute the gain and frequency and start a voice. -/
def Region.note_on (ops : FloatOps) (r : Region) (note vel : ℕ) : Region :=
  let v := effective_vel r.params.amp_veltrack vel
  let velocity_db := velocity_db_code ops v
  let rt := rt_decay_db r.params.trigger r.time_since_note_on r.params.rt_decay
  let gain := dB_to_gain ops
    (r.params.volume + velocity_db * |r.params.amp_veltrack| + rt)
  let native_freq := ops.noteFreq r.params.pitch_keycenter
  let current_note_frequency :=
    native_freq * ops.powf (ops.noteFreq note / native_freq) r.params.pitch_keytrack
      * ops.powf 2 (1 / 12 * r.params.tune)
  { r with gain := gain, time_since_note_on := 0,
           sample := r.sample.note_on note current_note_frequency gain }

/-- `Region::note_off`. -/
def Region.note_off (r : Region) (note : ℕ) : Region :=
  { r with sample := r.sample.note_off note }

/-- `Region::sustain_pedal`. -/
def Region.sustain_pedal (ops : FloatOps) (r : Region) (pushed : Bool) : Region :=
  let r := { r with sustain_pedal_pushed := pushed }
  if pushed then r
  else
    match r.params.trigger with
    | .release =>
      match r.last_note_on with
      | some (note, velocity) => r.note_on ops note velocity
      | none => r
    | _ =>
      let r := r.notes_for_release_trigger.foldl (fun acc n => acc.note_off n) r
      { r with notes_for_release_trigger := [] }

/-- `Region::is_playing_note`. -/
def Region.is_playing_note (r : Region) (note : ℕ) : Bool :=
  r.sample.is_playing_note note

/-- `Region::handle_note_on`: the note-on decision chain.  Returns the
"fired" flag together with the new region state. -/
def Region.handle_note_on (ops : FloatOps) (r : Region) (note vel : ℕ) :
    Bool × Region :=
  if r.is_playing_note note && !r.sample.is_releasing_note note then (false, r)
  else if !r.params.key_range.covering note then
    (false, { r with other_notes_on := r.other_notes_on.insert note })
  else if !r.params.vel_range.covering vel then (false, r)
  else
    match r.params.trigger with
    | .release | .releaseKey => (false, { r with last_note_on := some (note, vel) })
    | .first =>
      if !r.other_notes_on.isEmpty then (false, r) else (true, r.note_on ops note vel)
    | .legato =>
      if r.other_notes_on.isEmpty then (false, r) else (true, r.note_on ops note vel)
    | .attack => (true, r.note_on ops note vel)

/-- `Region::handle_note_off`. -/
def Region.handle_note_off (ops : FloatOps) (r : Region) (note : ℕ) :
    Bool × Region :=
  if !r.params.key_range.covering note then
    (false, { r with other_notes_on := r.other_notes_on.erase note })
  else
    match r.params.trigger with
    | .release | .releaseKey =>
      match r.last_note_on with
      | some (n, velocity) => (true, r.note_on ops n velocity)
      | none => (false, r)
    | _ =>
      if !r.sustain_pedal_pushed then (false, r.note_off note)
      else (false, { r with notes_for_release_trigger :=
        r.notes_for_release_trigger.insert note })

/-- `Region::handle_control_event`. -/
def Region.handle_control_event (ops : FloatOps) (r : Region)
    (control_number control_value : ℕ) : Bool × Region :=
  let r := if control_number = 64 then
    r.sustain_pedal ops (decide (control_value ≥ 64)) else r
  match (r.params.on_ccs.lookup control_number) with
  | some cvrange =>
    if cvrange.covering control_value then
      (true, r.note_on ops r.params.pitch_keycenter 127)
    else (false, r)
  | none => (false, r)

/-- The wire-event alphabet (`wmidi::MidiMessage`, channel dropped since the
engine ignores it). -/
inductive MidiMessage where
  | noteOn (note vel : ℕ)
  | noteOff (note vel : ℕ)
  | controlChange (control_number control_value : ℕ)
  | otherMessage
deriving DecidableEq

/-- `Region::pass_midi_msg`: clear the one-shot immunity flag, then dispatch
on the event kind; a note-on is additionally gated by the random range. -/
def Region.pass_midi_msg (ops : FloatOps) (r : Region) (midi_msg : MidiMessage)
    (random_value : ℚ) : Bool × Region :=
  let r := { r with once_immune_against_group_events := false }
  match midi_msg with
  | .noteOn note vel =>
    if r.params.random_range.covering random_value then
      r.handle_note_on ops note vel
    else (false, r)
  | .noteOff note _ => r.handle_note_off ops note
  | .controlChange cnum cval => r.handle_control_event ops cnum cval
  | .otherMessage => (false, r)

/-- `Region::group`: reading the group id sets the one-shot immunity flag. -/
def Region.group (r : Region) : ℕ × Region :=
  (r.params.group, { r with once_immune_against_group_events := true })

/-- `Region::group_activated`. -/
def Region.group_activated (r : Region) (group : ℕ) : Region :=
  if r.once_immune_against_group_events then r
  else if group = r.params.group ∨ group = r.params.off_by then
    { r with sample := r.sample.all_notes_off }
  else r

/-- The loop body of the first loop of `Engine::midi_event`: pass the event
to one region; if it fired, read its group (setting its immunity flag) and
insert it into the activated set when positive. -/
def passStep (ops : FloatOps) (midi_msg : MidiMessage) (random_value : ℚ)
    (acc : List Region × List ℕ) (r : Region) : List Region × List ℕ :=
  let res := r.pass_midi_msg ops midi_msg random_value
  if res.1 then
    let gr := res.2.group
    (acc.1 ++ [gr.2], if gr.1 > 0 then acc.2.insert gr.1 else acc.2)
  else (acc.1 ++ [res.2], acc.2)

/-- Phase one of `Engine::midi_event`: pass the event to every region in
order, collecting the activated groups. -/
def passPhase (ops : FloatOps) (midi_msg : MidiMessage) (random_value : ℚ)
    (regions : List Region) : List Region × List ℕ :=
  regions.foldl (passStep ops midi_msg random_value) ([], [])

/-- `Engine::midi_event` with the random draw made explicit (the spec's
`event_with_random`): phase one, then broadcast every activated group to
every region. -/
def midi_event_with_random (ops : FloatOps) (midi_msg : MidiMessage)
    (random_value : ℚ) (regions : List Region) : List Region :=
  let phase1 := passPhase ops midi_msg random_value regions
  phase1.2.foldl (fun rs g => rs.map (fun r => r.group_activated g)) phase1.1

/-- `Engine::midi_event`: draw one pseudorandom value (modelled as the head
of an injected stream) and dispatch.  Returns the regions and the rest of
the stream. -/
def Engine.midi_event (ops : FloatOps) (midi_msg : MidiMessage)
    (random_stream : List ℚ) (regions : List Region) :
    List Region × List ℚ :=
  (midi_event_with_random ops midi_msg (random_stream.headD 0) regions,
    random_stream.tail)

/-- `Region::new` (the sample data is already decoded). -/
def Region.new (ops : FloatOps) (params : RegionData) (sample_data : List ℚ)
    (samplerate : ℚ) (max_block_length : ℕ) : Region :=
  let amp_envelope := ADSREnvelope.new ops params.ampeg samplerate max_block_length
  let sample := Sample.new sample_data max_block_length
    (ops.noteFreq params.pitch_keycenter) amp_envelope
  { params := params, sample := sample, gain := 1, samplerate := samplerate
    last_note_on := none, notes_for_release_trigger := [], other_notes_on := []
    time_since_note_on := 0, sustain_pedal_pushed := false
    once_immune_against_group_events := false }

/-! ## Spec-side definitions

These follow the *spec's words* (not the source); they exist to be compared
against the source-derived definitions above. -/

/-- Follows the spec's words (note-on step 6): `velocity_db = 0` if v = 0,
else `−20 · log10(127² / v²)`. -/
def velocity_db_spec (ops : FloatOps) (vel : ℕ) : ℚ :=
  if vel = 0 then 0
  else -20 * ops.log10 ((127 * 127) / ((vel : ℚ) * (vel : ℚ)))

/-- Follows the spec's words (claim C7): an envelope table length of
`ceil(seconds · sample_rate / B) · B + B`. -/
def spec_table_length (seconds samplerate : ℚ) (max_block_length : ℕ) : ℕ :=
  (qceil (seconds * samplerate / (max_block_length : ℚ))).toNat * max_block_length
    + max_block_length

/-! ## Derived per-region views of the event dispatch (for claim C5) -/

/-- The state of one region after phase one of `Engine::midi_event`,
computed from that region alone: pass the event, and when it fired, the
engine reads the group, which sets the immunity flag. -/
def postPass (ops : FloatOps) (midi_msg : MidiMessage) (random_value : ℚ)
    (r : Region) : Region :=
  let res := r.pass_midi_msg ops midi_msg random_value
  if res.1 then (res.2.group).2 else res.2

/-- The group ids, in region order and with repetitions, of the regions
whose `pass_midi_msg` returned true and whose group id is positive. -/
def fired_groups (ops : FloatOps) (midi_msg : MidiMessage) (random_value : ℚ)
    (regions : List Region) : List ℕ :=
  regions.filterMap (fun r =>
    if (r.pass_midi_msg ops midi_msg random_value).1 = true ∧ 0 < r.params.group
    then some r.params.group else none)

/-! ## Concrete fixtures used by witnesses and counterexamples -/

/-- A concrete `FloatOps` instance: `powf` returns the exponent (so distinct
dB arguments stay distinguishable), the other operations are constant. -/
def opsExp : FloatOps :=
  { log10 := fun _ => 0, powf := fun _ e => e, fexp := fun _ => 0
    noteFreq := fun _ => 1 }

/-- A small concrete envelope table set (block length 4). -/
def envFix : ADSREnvelope :=
  { attack_decay_envelope := [1, 1, 1, 1, 1, 1, 1, 1, 1, 1, 1, 1, 1, 1, 1, 1]
    sustain_envelope := [1, 1, 1, 1]
    release_envelope := [0, 0, 0, 0, 0, 0, 0, 0, 0, 0, 0, 0, 0, 0, 0, 0]
    max_block_length := 4 }

/-- A concrete sample holding the given voices: 10 frames of constant 1
(20 interleaved values), native frequency 1. -/
def sampleFix (vs : List Voice) : Sample :=
  { sample_data := [1, 1, 1, 1, 1, 1, 1, 1, 1, 1, 1, 1, 1, 1, 1, 1, 1, 1, 1, 1]
    voices := vs
    real_sample_length := 10
    max_block_length := 4
    native_frequency := 1
    envelope := envFix }

/-- A voice for note 60 at frequency 1 in the given envelope state. -/
def voiceAt (st : EnvState) : Voice :=
  { position := 0, note := 60, frequency := 1, gain := 1, envelope_state := st
    last_envelope_gain := 1, release_start_gain := 1 }

/-- A concrete region with default parameters holding the given voices. -/
def regionFix (vs : List Voice) : Region :=
  { params := RegionData.default, sample := sampleFix vs, gain := 1
    samplerate := 1, last_note_on := none, notes_for_release_trigger := []
    other_notes_on := [], time_since_note_on := 0, sustain_pedal_pushed := false
    once_immune_against_group_events := false }

/-- A region whose key range has its low end disabled (`lokey=-1`) while the
high end is set (claim C10). -/
def regionHalfRange : Region :=
  { regionFix [] with
    params := { RegionData.default with key_range := { lo := none, hi := some 10 } } }

/-- A region whose random range is `[1/5, 1/2)` (claim C6). -/
def regionRand : Region :=
  { regionFix [] with
    params := { RegionData.default with random_range := { hi := 1/2, lo := 1/5 } } }

/-- The flat indices into the interleaved sample buffer read by the cubic
interpolators of frame `j` of a voice starting a block at `position` with
playback `ratio` (both channels; the wrapped `p0` reads excluded, they are
reduced modulo the buffer length by construction). -/
def frameReads (position ratio : ℚ) (j : ℕ) : List ℕ :=
  let sp := (⌊position + (j : ℚ) * ratio⌋).toNat
  [2 * sp, 2 * sp + 1, 2 * sp + 2, 2 * sp + 3, 2 * sp + 4, 2 * sp + 5]

/-! ## Helper lemmas -/

theorem qceil_eq_ceil (q : ℚ) : qceil q = ⌈q⌉ := by
  rw [qceil, ← Int.ceil_neg, neg_neg]

theorem resizeList_length (l : List ℚ) (n : ℕ) : (resizeList l n).length = n := by
  simp [resizeList]
  omega

theorem getD_replicate {α : Type} (n i : ℕ) (a d : α) :
    (List.replicate n a).getD i d = if i < n then a else d := by
  induction n generalizing i with
  | zero => simp
  | succ m ih =>
    cases i with
    | zero => simp [List.replicate_succ]
    | succ k => simpa [List.replicate_succ] using ih k

theorem adsStep_snd_length (g : Generator) (sr ds : ℚ) (p : ℚ × List ℚ)
    (i : ℕ) : ((adsStep g sr ds p i).2).length = p.2.length + 1 := by
  simp only [adsStep]
  split_ifs <;> simp

theorem foldl_adsStep_length (g : Generator) (sr ds : ℚ) (l : List ℕ) :
    ∀ p : ℚ × List ℚ,
      ((l.foldl (adsStep g sr ds) p).2).length = p.2.length + l.length := by
  induction l with
  | nil => simp
  | cons a t ih =>
    intro p
    simp only [List.foldl_cons, List.length_cons]
    rw [ih, adsStep_snd_length]
    omega

theorem foldl_releaseStep_length (ds : ℚ) (l : List ℕ) :
    ∀ p : ℚ × List ℚ,
      ((l.foldl (releaseStep ds) p).2).length = p.2.length + l.length := by
  induction l with
  | nil => simp
  | cons a t ih =>
    intro p
    simp only [List.foldl_cons, List.length_cons]
    rw [ih]
    simp [releaseStep]
    omega

theorem ads_envelope_length (ops : FloatOps) (g : Generator) (sr : ℚ) (B : ℕ) :
    (g.ads_envelope ops sr B).length =
      calc_needed_samples (g.attack + g.hold + 2 * g.decay) sr B := by
  unfold Generator.ads_envelope
  rw [foldl_adsStep_length]
  simp

theorem release_envelope_length (ops : FloatOps) (g : Generator) (sr : ℚ)
    (B : ℕ) :
    (g.release_envelope ops sr B).length =
      calc_needed_samples (2 * g.release) sr B := by
  unfold Generator.release_envelope
  rw [foldl_releaseStep_length]
  simp

theorem div_mul_lt_of_not_dvd {n B : ℕ} (hB : 0 < B) (h : ¬ B ∣ n) :
    (n / B) * B < n := by
  refine lt_of_le_of_ne (Nat.div_mul_le_self n B) fun heq => h ?_
  exact ⟨n / B, by rw [Nat.mul_comm]; exact heq.symm⟩

theorem lt_div_succ_mul {n B : ℕ} (hB : 0 < B) : n < (n / B + 1) * B :=
  (Nat.div_lt_iff_lt_mul hB).mp (Nat.lt_succ_self _)

theorem qceil_div_of_not_dvd {n B : ℕ} (hB : 0 < B) (h : ¬ B ∣ n) :
    qceil ((n : ℚ) / (B : ℚ)) = ((n / B : ℕ) : ℤ) + 1 := by
  have hBQ : (0 : ℚ) < (B : ℚ) := by exact_mod_cast hB
  rw [qceil_eq_ceil]
  apply le_antisymm
  · rw [Int.ceil_le, div_le_iff₀ hBQ]
    exact_mod_cast (lt_div_succ_mul (n := n) hB).le
  · rw [Int.add_one_le_iff, Int.lt_ceil, lt_div_iff₀ hBQ]
    exact_mod_cast div_mul_lt_of_not_dvd hB h

theorem growData_length (data : List ℚ) (position ratio : ℚ) (B : ℕ) :
    2 * ((qceil (position + (B : ℚ) * ratio)).toNat + 5) ≤
      (growData data position ratio B).length := by
  simp only [growData]
  split
  · rw [resizeList_length]
    omega
  · omega

theorem floor_toNat_le_qceil_toNat (p ratio : ℚ) {j B : ℕ} (hj : j ≤ B)
    (hr : 0 ≤ ratio) :
    (⌊p + (j : ℚ) * ratio⌋).toNat ≤ (qceil (p + (B : ℚ) * ratio)).toNat := by
  apply Int.toNat_le_toNat
  rw [qceil_eq_ceil]
  calc ⌊p + (j : ℚ) * ratio⌋ ≤ ⌊p + (B : ℚ) * ratio⌋ := by
        apply Int.floor_le_floor
        have : (j : ℚ) * ratio ≤ (B : ℚ) * ratio :=
          mul_le_mul_of_nonneg_right (by exact_mod_cast hj) hr
        linarith
    _ ≤ ⌈p + (B : ℚ) * ratio⌉ := Int.floor_le_ceil _

theorem note_on_params (ops : FloatOps) (r : Region) (note vel : ℕ) :
    (r.note_on ops note vel).params = r.params := rfl

theorem foldl_note_off_params (l : List ℕ) :
    ∀ r : Region, (l.foldl (fun acc n => acc.note_off n) r).params = r.params := by
  induction l with
  | nil => intro r; rfl
  | cons a t ih => intro r; simp only [List.foldl_cons]; rw [ih]; rfl

theorem sustain_pedal_params (ops : FloatOps) (r : Region) (pushed : Bool) :
    (r.sustain_pedal ops pushed).params = r.params := by
  unfold Region.sustain_pedal
  split
  · rfl
  · dsimp only
    split
    · split
      · rw [note_on_params]
      · rfl
    · dsimp only
      rw [foldl_note_off_params]

theorem handle_note_on_snd_params (ops : FloatOps) (r : Region) (note vel : ℕ) :
    ((r.handle_note_on ops note vel).2).params = r.params := by
  unfold Region.handle_note_on
  repeat' split
  all_goals rfl

theorem handle_note_off_snd_params (ops : FloatOps) (r : Region) (note : ℕ) :
    ((r.handle_note_off ops note).2).params = r.params := by
  unfold Region.handle_note_off
  repeat' split
  all_goals rfl

theorem handle_control_event_snd_params (ops : FloatOps) (r : Region)
    (cnum cval : ℕ) :
    ((r.handle_control_event ops cnum cval).2).params = r.params := by
  unfold Region.handle_control_event
  dsimp only
  set r2 := (if cnum = 64 then r.sustain_pedal ops (decide (cval ≥ 64)) else r)
    with hr2
  have h2 : r2.params = r.params := by
    rw [hr2]
    split
    · rw [sustain_pedal_params]
    · rfl
  rcases hlk : List.lookup cnum r2.params.on_ccs with _ | cvr
  · simp only [hlk]
    exact h2
  · simp only [hlk]
    split
    · rw [note_on_params]
      exact h2
    · exact h2

theorem pass_midi_msg_snd_params (ops : FloatOps) (r : Region)
    (midi_msg : MidiMessage) (rand : ℚ) :
    ((r.pass_midi_msg ops midi_msg rand).2).params = r.params := by
  unfold Region.pass_midi_msg
  cases midi_msg with
  | noteOn note vel =>
    simp only
    split
    · rw [handle_note_on_snd_params]
    · rfl
  | noteOff note vel => simp only; rw [handle_note_off_snd_params]
  | controlChange cnum cval => simp only; rw [handle_control_event_snd_params]
  | otherMessage => rfl

theorem passPhase_foldl (ops : FloatOps) (midi_msg : MidiMessage) (rand : ℚ) :
    ∀ (regions : List Region) (acc : List Region × List ℕ),
      regions.foldl (passStep ops midi_msg rand) acc =
        (acc.1 ++ regions.map (postPass ops midi_msg rand),
         (fired_groups ops midi_msg rand regions).foldl
           (fun s g => s.insert g) acc.2) := by
  intro regions
  induction regions with
  | nil => intro acc; simp [fired_groups]
  | cons r t ih =>
    intro acc
    simp only [List.foldl_cons, List.map_cons, fired_groups,
      List.filterMap_cons]
    rw [ih]
    by_cases hf : (r.pass_midi_msg ops midi_msg rand).1 = true
    · by_cases hg : 0 < r.params.group
      · simp [passStep, postPass, Region.group, hf, hg,
          pass_midi_msg_snd_params, fired_groups]
      · simp [passStep, postPass, Region.group, hf, hg,
          pass_midi_msg_snd_params, fired_groups]
    · simp [passStep, postPass, hf, fired_groups]

theorem foldl_broadcast_map (gs : List ℕ) :
    ∀ rs : List Region,
      gs.foldl (fun rs g => rs.map (fun r => r.group_activated g)) rs =
        rs.map (fun r => gs.foldl Region.group_activated r) := by
  induction gs with
  | nil => intro rs; simp
  | cons g t ih =>
    intro rs
    simp only [List.foldl_cons]
    rw [ih, List.map_map]
    rfl

/-! ## Claims -/

/-- Claim C9 (code bug): setting `hirand` to a value outside `[0, 1]` is
*accepted* by the source: the guard reads `v < 0.0 && v > 1.0`, an
unsatisfiable conjunction (clearly intended as `||`), so `set_hi 1.5` on the
default range returns `Ok` and stores `hi = 1.5` instead of the out-of-range
error the claim describes. -/
theorem claim_C9_out_of_range_accepted :
    RandomRange.set_hi { hi := 0, lo := 0 } (3/2) =
      .ok { hi := 3/2, lo := 0 } := by
  norm_num [RandomRange.set_hi]

/-- Claim C2: every voice still held by the `Sample` after `Sample::process`
satisfies `position < real_sample_length` and has an active envelope state;
voices violating either condition were removed by the final `retain`. -/
theorem claim_C2_retained_voices_live (ops : FloatOps) (s : Sample)
    (outs : List (ℚ × ℚ)) (v : Voice)
    (hv : v ∈ (Sample.process ops s outs).1.voices) :
    v.position < s.real_sample_length ∧ v.envelope_state.is_active = true := by
  simp only [Sample.process, List.mem_filter, Bool.and_eq_true,
    decide_eq_true_eq] at hv
  exact ⟨hv.2.1, hv.2.2⟩

/-- Witness for claim C2: a concrete one-voice sample processed for two
frames; the surviving voice sits at position 2 in state `AttackDecay 2`. -/
theorem claim_C2_witness :
    ({ voiceAt (.attackDecay 2) with position := 2 } : Voice).position <
        (sampleFix [voiceAt (.attackDecay 0)]).real_sample_length ∧
      ({ voiceAt (.attackDecay 2) with position := 2 } :
        Voice).envelope_state.is_active = true :=
  claim_C2_retained_voices_live opsExp (sampleFix [voiceAt (.attackDecay 0)])
    [(0, 0), (0, 0)] _ (by
      norm_num [Sample.process, processVoice, growData, sampleFrames, cubic,
        qceil, resizeList, ADSREnvelope.active_envelope,
        ADSREnvelope.update_state, EnvState.is_active, sampleFix, envFix,
        voiceAt, dB_to_gain, opsExp])

/-- Claim C6: for a random range `[a, b)` with `a < b` the gate accepts a
draw `v` iff `a ≤ v < b`; equal bounds accept every draw; and within
`pass_midi_msg` a note-on is handled iff the gate accepts the draw. -/
theorem claim_C6_random_gate (a b v : ℚ) :
    (a < b → ((RandomRange.mk b a).covering v = true ↔ a ≤ v ∧ v < b)) ∧
    (RandomRange.mk a a).covering v = true ∧
    (∀ (ops : FloatOps) (r : Region) (note vel : ℕ),
      r.params.random_range.covering v = false →
      r.pass_midi_msg ops (.noteOn note vel) v =
        (false, { r with once_immune_against_group_events := false })) ∧
    (∀ (ops : FloatOps) (r : Region) (note vel : ℕ),
      r.params.random_range.covering v = true →
      r.pass_midi_msg ops (.noteOn note vel) v =
        Region.handle_note_on ops
          { r with once_immune_against_group_events := false } note vel) := by
  refine ⟨fun hab => ?_, ?_, fun ops r note vel h => ?_, fun ops r note vel h => ?_⟩
  · simp only [RandomRange.covering, Bool.or_eq_true, Bool.and_eq_true,
      decide_eq_true_eq]
    constructor
    · rintro (heq | ⟨h1, h2⟩)
      · exact absurd heq (ne_of_gt hab)
      · exact ⟨h1, h2⟩
    · rintro ⟨h1, h2⟩
      exact Or.inr ⟨h1, h2⟩
  · simp [RandomRange.covering]
  · simp [Region.pass_midi_msg, h]
  · simp [Region.pass_midi_msg, h]

/-- Witness for claim C6: the draw `3/10` lies in `[1/5, 1/2)`, and a region
gated by that range rejects the draw `3/4`. -/
theorem claim_C6_witness :
    ((RandomRange.mk (1/2) (1/5)).covering (3/10) = true ↔
      (1/5 : ℚ) ≤ 3/10 ∧ (3/10 : ℚ) < 1/2) ∧
    regionRand.pass_midi_msg opsExp (.noteOn 60 64) (3/4) =
      (false, { regionRand with once_immune_against_group_events := false }) :=
  ⟨(claim_C6_random_gate (1/5) (1/2) (3/10)).1 (by norm_num),
   (claim_C6_random_gate 0 0 (3/4)).2.2.1 opsExp regionRand 60 64 (by
     norm_num [regionRand, regionFix, RegionData.default, RandomRange.covering])⟩

/-- Claim C4 (amended): `group_activated(g)` moves every voice of the player
to Release iff the region is not immune and `g` equals the region's group or
its `off_by` — the source has no `g > 0` test (the engine's broadcast, not
the region, filters out group 0); an immune region is left untouched. -/
theorem claim_C4_group_activated (r : Region) (g : ℕ) :
    (r.once_immune_against_group_events = true → r.group_activated g = r) ∧
    (r.once_immune_against_group_events = false →
      (g = r.params.group ∨ g = r.params.off_by →
        (r.group_activated g).sample.voices = r.sample.voices.map releaseVoice ∧
        (r.group_activated g).sample.voices.all
          (fun v => v.envelope_state.is_releasing) = true) ∧
      (¬(g = r.params.group ∨ g = r.params.off_by) → r.group_activated g = r)) := by
  refine ⟨fun h => ?_, fun h => ⟨fun hg => ?_, fun hg => ?_⟩⟩
  · simp [Region.group_activated, h]
  · constructor
    · simp [Region.group_activated, h, hg, Sample.all_notes_off]
    · simp [Region.group_activated, h, hg, Sample.all_notes_off, List.all_map,
        Function.comp, releaseVoice, EnvState.is_releasing]
  · simp [Region.group_activated, h, hg]

/-- Counterexample for claim C4: a non-immune region with `group = 0` and a
playing voice is *not* left untouched by `group_activated(0)`, although the
claim's `g > 0` condition says it should be. -/
theorem claim_C4_counterexample :
    (regionFix [voiceAt (.attackDecay 0)]).group_activated 0 ≠
      regionFix [voiceAt (.attackDecay 0)] := by
  intro h
  have h2 := congrArg
    (fun x => x.sample.voices.map (fun v => v.envelope_state)) h
  simp [regionFix, sampleFix, voiceAt, Region.group_activated,
    Sample.all_notes_off, releaseVoice, RegionData.default] at h2

/-- Witness for claim C4: an immune region survives a matching broadcast
untouched; a non-immune region with matching group has its voices released. -/
theorem claim_C4_witness :
    ({ regionFix [] with once_immune_against_group_events := true
        }.group_activated 1 =
      { regionFix [] with once_immune_against_group_events := true }) ∧
    ((regionFix [voiceAt (.attackDecay 0)]).group_activated 0).sample.voices =
      (regionFix [voiceAt (.attackDecay 0)]).sample.voices.map releaseVoice :=
  ⟨(claim_C4_group_activated _ 1).1 rfl,
   (((claim_C4_group_activated _ 0).2 rfl).1 (Or.inl rfl)).1⟩

/-- Counterexample for claim C1: at effective velocity 0 the source uses
`velocity_db = -160`, not the claimed `0`; the resulting gains differ. -/
theorem claim_C1_counterexample :
    ((regionFix []).note_on opsExp 60 0).gain ≠
      dB_to_gain opsExp ((regionFix []).params.volume +
        velocity_db_spec opsExp
            (effective_vel (regionFix []).params.amp_veltrack 0) *
          |(regionFix []).params.amp_veltrack| +
        rt_decay_db (regionFix []).params.trigger
          (regionFix []).time_since_note_on (regionFix []).params.rt_decay) := by
  norm_num [Region.note_on, regionFix, RegionData.default, velocity_db_code,
    velocity_db_spec, effective_vel, rt_decay_db, dB_to_gain, opsExp]

/-- Claim C1 (amended): the voice gain of `Region::note_on` is
`to_linear(volume + velocity_db · |amp_veltrack| + rt_db)` where
`velocity_db` is `-160` (not 0) at effective velocity 0 and
`−20·log10(127²/v²)` otherwise, the effective velocity is `127 − v` when
`amp_veltrack < 0`, and `rt_db` is the release-trigger roll-off; the voice
appended to the player carries exactly that gain. -/
theorem claim_C1_velocity_gain (ops : FloatOps) (r : Region) (note vel : ℕ) :
    (r.note_on ops note vel).gain =
      dB_to_gain ops (r.params.volume +
        velocity_db_code ops (effective_vel r.params.amp_veltrack vel) *
          |r.params.amp_veltrack| +
        rt_decay_db r.params.trigger r.time_since_note_on r.params.rt_decay) ∧
    ((r.note_on ops note vel).sample.voices.getLast?.map Voice.gain) =
      some ((r.note_on ops note vel).gain) := by
  constructor
  · rfl
  · simp [Region.note_on, Sample.note_on, List.getLast?_concat, Voice.new]

/-- Claim C3 (amended): when the region has a non-releasing voice for the
note *and no releasing voice for it*, a note-on leaves everything unchanged
except clearing the one-shot immunity flag, and `pass_midi_msg` returns
false.  (When a releasing voice also exists, the guard
`is_playing_note && !is_releasing_note` falls through and the region
retriggers — see the counterexample.) -/
theorem claim_C3_nonreleasing_guard (ops : FloatOps) (r : Region)
    (note vel : ℕ) (rand : ℚ)
    (h1 : r.sample.is_playing_note note = true)
    (h2 : r.sample.is_releasing_note note = false) :
    r.pass_midi_msg ops (.noteOn note vel) rand =
      (false, { r with once_immune_against_group_events := false }) := by
  cases hc : r.params.random_range.covering rand
  · simp [Region.pass_midi_msg, hc]
  · simp [Region.pass_midi_msg, hc, Region.handle_note_on,
      Region.is_playing_note, h1, h2]

/-- Counterexample for claim C3: a region holding both a releasing and a
non-releasing voice for note 60 does *not* ignore a new note-on for 60 —
`pass_midi_msg` returns true (the region retriggers), though the claim says
it must do nothing regardless of releasing voices. -/
theorem claim_C3_counterexample :
    ((regionFix [voiceAt (.release 0), voiceAt (.attackDecay 0)]).pass_midi_msg
      opsExp (.noteOn 60 64) 0).1 = true := by
  norm_num [Region.pass_midi_msg, Region.handle_note_on, Region.is_playing_note,
    Sample.is_playing_note, Sample.is_releasing_note, EnvState.is_releasing,
    regionFix, sampleFix, voiceAt, RegionData.default, RandomRange.covering,
    NoteRange.covering, VelRange.covering]

/-- Witness for claim C3: a region with a single non-releasing voice for
note 60 ignores a repeated note-on. -/
theorem claim_C3_witness :
    (regionFix [voiceAt (.attackDecay 0)]).pass_midi_msg opsExp
        (.noteOn 60 64) 0 =
      (false, { regionFix [voiceAt (.attackDecay 0)] with
        once_immune_against_group_events := false }) :=
  claim_C3_nonreleasing_guard opsExp _ 60 64 0
    (by norm_num [Sample.is_playing_note, EnvState.is_releasing, regionFix,
      sampleFix, voiceAt])
    (by norm_num [Sample.is_releasing_note, EnvState.is_releasing, regionFix,
      sampleFix, voiceAt])

/-- Claim C10: a key range with exactly one endpoint disabled covers no note
at all; such a region is never triggered by a note-on or note-off (a note-on
can at most record the note in the other-held-notes set, a note-off at most
removes it). -/
theorem claim_C10_half_disabled_key_range (ops : FloatOps) (r : Region)
    (note vel : ℕ) (rand : ℚ)
    (h : (r.params.key_range.lo = none ∧ r.params.key_range.hi ≠ none) ∨
         (r.params.key_range.lo ≠ none ∧ r.params.key_range.hi = none)) :
    r.params.key_range.covering note = false ∧
    (∃ notes, r.pass_midi_msg ops (.noteOn note vel) rand =
      (false, { r with once_immune_against_group_events := false,
                       other_notes_on := notes })) ∧
    r.pass_midi_msg ops (.noteOff note vel) rand =
      (false, { r with once_immune_against_group_events := false,
                       other_notes_on := r.other_notes_on.erase note }) := by
  have hcov : r.params.key_range.covering note = false := by
    rcases h with ⟨h1, _⟩ | ⟨_, h2⟩
    · cases hh : r.params.key_range.hi <;>
        simp [NoteRange.covering, h1, hh]
    · cases hl : r.params.key_range.lo <;>
        simp [NoteRange.covering, h2, hl]
  refine ⟨hcov, ?_, ?_⟩
  · cases hrand : r.params.random_range.covering rand
    · exact ⟨r.other_notes_on, by simp [Region.pass_midi_msg, hrand]⟩
    · cases hg : (r.sample.is_playing_note note &&
        !r.sample.is_releasing_note note)
      · exact ⟨r.other_notes_on.insert note, by
          simp [Region.pass_midi_msg, hrand, Region.handle_note_on,
            Region.is_playing_note, hg, hcov]⟩
      · exact ⟨r.other_notes_on, by
          simp [Region.pass_midi_msg, hrand, Region.handle_note_on,
            Region.is_playing_note, hg]⟩
  · simp [Region.pass_midi_msg, Region.handle_note_off, hcov]

/-- Witness for claim C10: a region with `lokey` disabled and `hikey = 10`
covers no note and passes a note-off through untouched. -/
theorem claim_C10_witness :
    regionHalfRange.params.key_range.covering 5 = false ∧
    regionHalfRange.pass_midi_msg opsExp (.noteOff 5 0) 0 =
      (false, { regionHalfRange with
        once_immune_against_group_events := false,
        other_notes_on := regionHalfRange.other_notes_on.erase 5 }) := by
  have h : regionHalfRange.params.key_range.lo = none ∧
      regionHalfRange.params.key_range.hi ≠ none := by
    simp [regionHalfRange, regionFix, RegionData.default]
  exact ⟨(claim_C10_half_disabled_key_range opsExp regionHalfRange 5 0 0
      (Or.inl h)).1,
    (claim_C10_half_disabled_key_range opsExp regionHalfRange 5 0 0
      (Or.inl h)).2.2⟩

/-- Counterexample for claim C7: with attack = hold = 0, decay = 4,
sample rate 1 and block length 8 the attack-hold-decay table has
`(8/8 + 2)·8 = 24` entries, not the `ceil(8/8)·8 + 8 = 16` the claim's
formula gives (they differ exactly when the block length divides the
rounded sample count). -/
theorem claim_C7_counterexample :
    (({ Generator.default with decay := 4 } : Generator).ads_envelope opsExp
      1 8).length ≠
      spec_table_length
        (({ Generator.default with decay := 4 } : Generator).attack +
          ({ Generator.default with decay := 4 } : Generator).hold +
          2 * ({ Generator.default with decay := 4 } : Generator).decay) 1 8 := by
  rw [ads_envelope_length]
  norm_num [calc_needed_samples, roundF, Generator.default, spec_table_length,
    qceil, Int.toNat_ofNat]
  omega

/-- Claim C7 (amended): the attack-hold-decay table has
`(round((A + H + 2·D)·sample_rate) div B + 2)·B` entries and the release
table `(round(2·R·sample_rate) div B + 2)·B` entries (floor division, two
pad blocks); this agrees with the claimed `ceil(x·sample_rate/B)·B + B`
exactly when `B` does not divide the rounded sample count. -/
theorem claim_C7_table_lengths (ops : FloatOps) (g : Generator) (sr : ℚ)
    (B : ℕ) (hB : 0 < B) :
    (g.ads_envelope ops sr B).length =
      ((roundF ((g.attack + g.hold + 2 * g.decay) * sr)).toNat / B + 2) * B ∧
    (g.release_envelope ops sr B).length =
      ((roundF (2 * g.release * sr)).toNat / B + 2) * B ∧
    (∀ n : ℕ, ¬ B ∣ n →
      (n / B + 2) * B = (qceil ((n : ℚ) / (B : ℚ))).toNat * B + B) := by
  refine ⟨by rw [ads_envelope_length]; rfl,
    by rw [release_envelope_length]; rfl, fun n hn => ?_⟩
  rw [qceil_div_of_not_dvd hB hn,
    show (((n / B : ℕ) : ℤ) + 1) = ((n / B + 1 : ℕ) : ℤ) by push_cast; ring,
    Int.toNat_natCast]
  ring

/-- Witness for claim C7: for decay 3, sample rate 1 and block length 8 the
rounded sample count is 6, the table length is `(6/8 + 2)·8 = 16`, and since
`8 ∤ 6` the floor-division formula agrees with the ceiling formula. -/
theorem claim_C7_witness :
    (({ Generator.default with decay := 3 } : Generator).ads_envelope opsExp
      1 8).length =
      ((roundF ((({ Generator.default with decay := 3 } : Generator).attack +
        ({ Generator.default with decay := 3 } : Generator).hold +
        2 * ({ Generator.default with decay := 3 } : Generator).decay) *
          1)).toNat / 8 + 2) * 8 ∧
    (6 / 8 + 2) * 8 = (qceil ((6 : ℚ) / (8 : ℚ))).toNat * 8 + 8 :=
  ⟨(claim_C7_table_lengths opsExp _ 1 8 (by norm_num)).1,
   (claim_C7_table_lengths opsExp { Generator.default with decay := 3 } 1 8
     (by norm_num)).2.2 6 (by norm_num)⟩

/-- Claim C8: during `Sample::process` with a block of at most
`max_block_length` frames, every index the cubic interpolation computes for
frame `j` of a voice lies inside the (possibly just grown) sample buffer,
and the buffer is non-empty (so the length-modulo read of `p0` is in bounds
as well). -/
theorem claim_C8_cubic_reads_in_bounds (ops : FloatOps) (envl : ADSREnvelope)
    (nf : ℚ) (B : ℕ) (data : List ℚ) (outs : List (ℚ × ℚ)) (v : Voice) (j : ℕ)
    (hn : outs.length ≤ B) (hj : j < outs.length)
    (hf : 0 ≤ v.frequency) (hnf : 0 ≤ nf) :
    0 < ((processVoice ops envl nf B data outs v).1).length ∧
    (frameReads v.position (v.frequency / nf) j).all
      (fun i => decide
        (i < ((processVoice ops envl nf B data outs v).1).length)) = true := by
  have hr : 0 ≤ v.frequency / nf := div_nonneg hf hnf
  have hdata : (processVoice ops envl nf B data outs v).1 =
      growData data v.position (v.frequency / nf) B := rfl
  rw [hdata]
  have hlen := growData_length data v.position (v.frequency / nf) B
  have hsp := floor_toNat_le_qceil_toNat v.position (v.frequency / nf)
    (le_of_lt (lt_of_lt_of_le hj hn)) hr
  refine ⟨by omega, ?_⟩
  simp only [frameReads, List.all_cons, List.all_nil, Bool.and_eq_true,
    decide_eq_true_eq]
  refine ⟨by omega, by omega, by omega, by omega, by omega, by omega, trivial⟩

/-- Witness for claim C8: a concrete voice at pitch ratio 1 in a two-frame
block over an initially empty (then lazily grown) buffer. -/
theorem claim_C8_witness :
    0 < ((processVoice opsExp envFix 1 4 [] [(0, 0), (0, 0)]
      (voiceAt (.attackDecay 0))).1).length ∧
    (frameReads (voiceAt (.attackDecay 0)).position
        ((voiceAt (.attackDecay 0)).frequency / 1) 1).all
      (fun i => decide (i < ((processVoice opsExp envFix 1 4 []
        [(0, 0), (0, 0)] (voiceAt (.attackDecay 0))).1).length)) = true :=
  claim_C8_cubic_reads_in_bounds opsExp envFix 1 4 [] [(0, 0), (0, 0)]
    (voiceAt (.attackDecay 0)) 1 (by norm_num) (by norm_num)
    (by norm_num [voiceAt]) (by norm_num)

/-- Claim C5: for every dispatched event, the engine consumes exactly one
random draw; every region's final state is the broadcast of all activated
groups applied to that region's state *after* its own `pass_midi_msg` (with
the one shared draw); and the activated set is exactly the deduplicated list
of positive group ids of the regions whose `pass_midi_msg` returned true. -/
theorem claim_C5_event_dispatch (ops : FloatOps) (midi_msg : MidiMessage)
    (rand : ℚ) (regions : List Region) (random_stream : List ℚ) :
    midi_event_with_random ops midi_msg rand regions =
      regions.map (fun r =>
        ((fired_groups ops midi_msg rand regions).foldl
            (fun s g => s.insert g) []).foldl Region.group_activated
          (postPass ops midi_msg rand r)) ∧
    (passPhase ops midi_msg rand regions).2 =
      (fired_groups ops midi_msg rand regions).foldl
        (fun s g => s.insert g) [] ∧
    Engine.midi_event ops midi_msg random_stream regions =
      (midi_event_with_random ops midi_msg (random_stream.headD 0) regions,
        random_stream.tail) := by
  have hp := passPhase_foldl ops midi_msg rand regions ([], [])
  refine ⟨?_, ?_, rfl⟩
  · unfold midi_event_with_random passPhase
    rw [hp]
    simp only [List.nil_append]
    rw [foldl_broadcast_map, List.map_map]
    rfl
  · unfold passPhase
    rw [hp]

end Sonarigo
